import Mathlib

/-!
Shallow embedding of the kitties pallet (`src/pallets/kitties/src/lib.rs`).

Accounts, asset ids and balances are modelled as `Nat` (the runtime
instantiates `KittyIndex` with `u32` and balances with an unsigned
integer type).  The three storage maps are `ValueQuery` maps whose value
type is itself an `Option`, so each map is modelled *physically* as
`Nat → Option (Option _)`: the outer `Option` is presence of the entry,
the inner one is the stored value; the framework getter flattens the two
with `Option.join`.  Each dispatchable becomes a function from the state
to a result that is either a new state, a typed pallet error, or a crash
(the Rust code calls `.unwrap()` on two owner lookups, which panics when
the entry is absent).
-/

namespace SubstrateKitties

/-- A kitty's genetic payload: the 16 bytes of `Kitty(pub [u8; 16])`,
each byte a `Nat` below 256. -/
abbrev Dna := List Nat

/-- Pallet constants: `ReserveOfNewCreate` from the pallet `Config`, and
the existential deposit of the external balances pallet (used by the
keep-alive transfer). -/
structure Cfg where
  reserveOfNewCreate : Nat
  existentialDeposit : Nat

/-- The persistent store of the pallet plus the external currency
ledger: `KittiesCount`, `Kitties`, `Owner`, `KittiesPrice`, and per
account free and reserved balances. -/
structure KState where
  count : Option Nat
  kitties : Nat → Option (Option Dna)
  owner : Nat → Option (Option Nat)
  price : Nat → Option (Option Nat)
  free : Nat → Nat
  reserved : Nat → Nat

/-- The pallet's error enum, together with the two balance errors that a
failed currency transfer propagates through `?` in `buy`. -/
inductive KErr where
  | kittiesCountOverflow
  | invalidKittyIndex
  | notOwnerOfKitty
  | sameParentIndex
  | notForSale
  | notEnoughBalance
  | kittyAlreadyOwned
  | insufficientBalance
  | wouldKillAccount
deriving DecidableEq, Repr

/-- Outcome of a dispatchable: success with the written state, a typed
dispatch error, or a crash (a Rust panic from `.unwrap()` on `None`). -/
inductive KResult where
  | ok (s : KState)
  | err (e : KErr)
  | crash

/-- Whether a dispatch outcome is a success. -/
def KResult.isOk : KResult → Bool
  | .ok _ => true
  | _ => false

/-- `T::KittyIndex::max_value()` for the `u32` instantiation. -/
def maxKittyIndex : Nat := 2 ^ 32 - 1

/-- The framework getter of a `ValueQuery` storage map whose value type
is an `Option`: stored value if the entry exists, default `none`
otherwise. -/
def mapGet (m : Nat → Option (Option α)) (k : Nat) : Option α :=
  (m k).join

/-- Modelled from the spec: the external Currency Ledger's
`reserve(account, amount)` — moves `amount` from free to reserved,
failing when the free balance is insufficient. -/
def reserveBal (amt who : Nat) (s : KState) : Option KState :=
  if amt ≤ s.free who then
    some { s with
      free := fun a => if a = who then s.free a - amt else s.free a,
      reserved := fun a => if a = who then s.reserved a + amt else s.reserved a }
  else none

/-- Modelled from the spec: the external Currency Ledger's
`unreserve(account, amount)` — never fails, moves `min amount reserved`
back to free (clamped). -/
def unreserveBal (amt who : Nat) (s : KState) : KState :=
  let m := min amt (s.reserved who)
  { s with
    free := fun a => if a = who then s.free a + m else s.free a,
    reserved := fun a => if a = who then s.reserved a - m else s.reserved a }

/-- Modelled from the spec: the external Currency Ledger's
`transfer(from, to, amount, KeepAlive)` — fails `Insufficient` when the
sender lacks `amount`, and `WouldKillAccount` when paying would leave
the sender below the existential deposit. -/
def transferBal (cfg : Cfg) (src dst amt : Nat) (s : KState) : Except KErr KState :=
  if amt ≤ s.free src then
    if cfg.existentialDeposit ≤ s.free src - amt then
      .ok { s with
        free := fun a =>
          if a = src then s.free a - amt
          else if a = dst then s.free a + amt
          else s.free a }
    else .error .wouldKillAccount
  else .error .insufficientBalance

/-- The genetic mix of `breed`: for each byte,
`(selector & dna_1) | (!selector & dna_2)` (on a byte, Rust's `!` is
xor with 255). -/
def mixDna : List Nat → List Nat → List Nat → List Nat
  | se :: ss, a :: da, b :: db =>
      ((se &&& a) ||| ((se ^^^ 255) &&& b)) :: mixDna ss da db
  | _, _, _ => []

/-- The id `create`/`breed` assign: the stored `KittiesCount` if
present (failing at `max_value`), else `1`. -/
def nextId (s : KState) : Option Nat :=
  match s.count with
  | some id => if id = maxKittyIndex then none else some id
  | none => some 1

/-- Shared write phase of `create` and `breed`: insert the kitty and its
owner at `kid`, then `KittiesCount::put(kid + 1)`. -/
def registerKitty (kid who : Nat) (dna : Dna) (s : KState) : KState :=
  { s with
    kitties := fun j => if j = kid then some (some dna) else s.kitties j,
    owner := fun j => if j = kid then some (some who) else s.owner j,
    count := some (kid + 1) }

/-- `create`: allocate the id, reserve `ReserveOfNewCreate` from the
caller (failing `NotEnoughBalance`), then register the kitty with the
entropy-derived `dna` and assign the caller as owner.  The entropy is an
explicit argument (the pallet obtains it from its `Randomness`
collaborator). -/
def create (cfg : Cfg) (who : Nat) (dna : Dna) (s : KState) : KResult :=
  match nextId s with
  | none => .err .kittiesCountOverflow
  | some kid =>
    match reserveBal cfg.reserveOfNewCreate who s with
    | none => .err .notEnoughBalance
    | some s1 => .ok (registerKitty kid who dna s1)

/-- `transfer_kitty`: unconditional overwrite of the owner entry. -/
def transferKitty (dst kid : Nat) (s : KState) : KState :=
  { s with owner := fun j => if j = kid then some (some dst) else s.owner j }

/-- `transfer`: `Owner::get(kitty_id).unwrap()` (a crash when the entry
is absent), `ensure!(owner == sender, NotOwnerOfKitty)`, then
`transfer_kitty` — note the code has no same-owner check. -/
def transfer (sender dst kid : Nat) (s : KState) : KResult :=
  match mapGet s.owner kid with
  | none => .crash
  | some ow =>
    if ow = sender then .ok (transferKitty dst kid s)
    else .err .notOwnerOfKitty

/-- `breed`: distinct parents, both owned by the caller, both payloads
present, allocate an id, mix the DNA with the entropy `sel`, register
the child under the caller. -/
def breed (who i1 i2 : Nat) (sel : List Nat) (s : KState) : KResult :=
  if i1 = i2 then .err .sameParentIndex
  else
    match mapGet s.owner i1 with
    | none => .err .invalidKittyIndex
    | some o1 =>
      match mapGet s.owner i2 with
      | none => .err .invalidKittyIndex
      | some o2 =>
        if o1 = who then
          if o2 = who then
            match mapGet s.kitties i1 with
            | none => .err .invalidKittyIndex
            | some d1 =>
              match mapGet s.kitties i2 with
              | none => .err .invalidKittyIndex
              | some d2 =>
                match nextId s with
                | none => .err .kittiesCountOverflow
                | some kid => .ok (registerKitty kid who (mixDna sel d1 d2) s)
          else .err .notOwnerOfKitty
        else .err .notOwnerOfKitty

/-- `sell`: owner check, then
`KittiesPrice::mutate_exists(kitty_id, |p| *p = Some(price))` — the
entry is written to hold `price`, even when `price` is `None`. -/
def sell (who kid : Nat) (price? : Option Nat) (s : KState) : KResult :=
  if mapGet s.owner kid = some who then
    .ok { s with price := fun j => if j = kid then some price? else s.price j }
  else .err .notOwnerOfKitty

/-- `buy`: `Owner::get(kitty_id).unwrap()` (crash when absent), reject a
buyer who already owns the kitty, require a listed price, reserve the
fixed collateral from the buyer, unreserve it from the seller, pay the
price with a keep-alive transfer, remove the listing, and reassign
ownership. -/
def buy (cfg : Cfg) (buyer kid : Nat) (s : KState) : KResult :=
  match mapGet s.owner kid with
  | none => .crash
  | some ow =>
    if ow = buyer then .err .kittyAlreadyOwned
    else
      match mapGet s.price kid with
      | none => .err .notForSale
      | some p =>
        match reserveBal cfg.reserveOfNewCreate buyer s with
        | none => .err .notEnoughBalance
        | some s1 =>
          let s2 := unreserveBal cfg.reserveOfNewCreate ow s1
          match transferBal cfg buyer ow p s2 with
          | .error e => .err e
          | .ok s3 =>
            .ok (transferKitty buyer kid
                  { s3 with price := fun j => if j = kid then none else s3.price j })

/-- The five dispatchables with their arguments (entropy passed
explicitly). -/
inductive Op where
  | create (who : Nat) (dna : Dna)
  | transfer (sender dst kid : Nat)
  | breed (who i1 i2 : Nat) (sel : List Nat)
  | sell (who kid : Nat) (price? : Option Nat)
  | buy (buyer kid : Nat)

/-- Run one dispatchable against a state. -/
def runOp (cfg : Cfg) : Op → KState → KResult
  | .create who dna, s => create cfg who dna s
  | .transfer sender dst kid, s => transfer sender dst kid s
  | .breed who i1 i2 sel, s => breed who i1 i2 sel s
  | .sell who kid p, s => sell who kid p s
  | .buy buyer kid, s => buy cfg buyer kid s

/-- Modelled from the spec: the host framework's transactional dispatch
— all storage and ledger writes of an operation commit together on
success and are rolled back when the operation fails (a panic aborts
the block, so it also commits nothing). -/
def applyOp (cfg : Cfg) (o : Op) (s : KState) : KState :=
  match runOp cfg o s with
  | .ok s' => s'
  | _ => s

/-- Apply a list of dispatchables in order. -/
def applyOps (cfg : Cfg) : List Op → KState → KState
  | [], s => s
  | o :: os, s => applyOps cfg os (applyOp cfg o s)

/-- A genesis state: empty pallet storage, arbitrary initial balances. -/
def Genesis (s : KState) : Prop :=
  s.count = none ∧ (∀ j, s.kitties j = none) ∧ (∀ j, s.owner j = none) ∧
    (∀ j, s.price j = none)

/-- States reachable from a genesis state by dispatching operations. -/
inductive Reachable (cfg : Cfg) : KState → Prop where
  | init (s : KState) : Genesis s → Reachable cfg s
  | step (s : KState) (o : Op) : Reachable cfg s → Reachable cfg (applyOp cfg o s)

/-- Concrete constants used by the witnesses: collateral 5, existential
deposit 1. -/
def c0 : Cfg := ⟨5, 1⟩

/-- A concrete 16-byte payload. -/
def dna0 : Dna := [1, 2, 3, 4, 5, 6, 7, 8, 9, 10, 11, 12, 13, 14, 15, 16]

/-- A second concrete 16-byte payload. -/
def dna1 : Dna :=
  [255, 254, 253, 252, 251, 250, 249, 248, 247, 246, 245, 244, 243, 242, 241, 240]

/-- A concrete 16-byte selector. -/
def sel0 : Dna := [0, 255, 1, 2, 128, 64, 32, 16, 8, 4, 2, 1, 170, 85, 255, 0]

/-- A concrete genesis state: account 1 holds 100 free, account 2 holds
1000 free. -/
def g0 : KState :=
  { count := none
    kitties := fun _ => none
    owner := fun _ => none
    price := fun _ => none
    free := fun a => if a = 1 then 100 else if a = 2 then 1000 else 0
    reserved := fun _ => 0 }

/-- `g0` after account 1 creates kitty 1. -/
def g1 : KState := applyOp c0 (.create 1 dna0) g0

/-- `g0` after account 1 creates kitties 1 and 2. -/
def g2 : KState := applyOps c0 [.create 1 dna0, .create 1 dna1] g0

/-- A state where account 1 owns kitty 1, listed at price 10 with the
collateral 5 reserved, and the prospective buyer (account 2) holds
exactly the collateral — so `buy` passes the reservation step and fails
at the price transfer. -/
def c1s : KState :=
  { count := some 2
    kitties := fun j => if j = 1 then some (some dna0) else none
    owner := fun j => if j = 1 then some (some 1) else none
    price := fun j => if j = 1 then some (some 10) else none
    free := fun a => if a = 2 then 5 else 0
    reserved := fun a => if a = 1 then 5 else 0 }

/-- Account 1 creates kitties 1 and 2, breeds kitty 3 (no reservation
taken by `breed`), then sells kitties 1 and 2 to account 2 — releasing
all of account 1's reserved collateral — and finally lists kitty 3. -/
def c6ops : List Op :=
  [.create 1 dna0, .create 1 dna1, .breed 1 1 2 sel0,
   .sell 1 1 (some 10), .buy 2 1, .sell 1 2 (some 10), .buy 2 2,
   .sell 1 3 (some 10)]

/-- The state reached by `c6ops`: account 1 still owns listed kitty 3
but has zero reserved balance. -/
def c6pre : KState := applyOps c0 c6ops g0

/-- `c6pre` after account 2 buys kitty 3. -/
def c6post : KState := applyOp c0 (.buy 2 3) c6pre

/-- A plain successful-purchase setup: account 1 owns kitty 1, listed
at 10, with the collateral 5 reserved; account 2 is funded. -/
def c6w : KState :=
  { count := some 2
    kitties := fun j => if j = 1 then some (some dna0) else none
    owner := fun j => if j = 1 then some (some 1) else none
    price := fun j => if j = 1 then some (some 10) else none
    free := fun a => if a = 1 then 95 else if a = 2 then 1000 else 0
    reserved := fun a => if a = 1 then 5 else 0 }

/-- `c6w` after account 2 buys kitty 1. -/
def c6wpost : KState := applyOp c0 (.buy 2 1) c6w

/-- `g0` after account 1 creates kitty 1 and then delists it with
`sell(1, 1, None)`. -/
def c8s : KState := applyOps c0 [.create 1 dna0, .sell 1 1 none] g0

/-- `g1` after account 1 transfers kitty 1 to account 2. -/
def c9post : KState := applyOp c0 (.transfer 1 2 1) g1

/-- A genesis state whose accounts hold 3 free each — less than the
creation collateral 5. -/
def c10s : KState := { g0 with free := fun _ => 3 }

/-- A successful reservation takes `amt` out of the payer's free
balance into its reserved balance and touches nothing else. -/
theorem reserveBal_eq_some {amt who : Nat} {s s1 : KState}
    (h : reserveBal amt who s = some s1) :
    amt ≤ s.free who ∧ s1.free who = s.free who - amt ∧
      s1.reserved who = s.reserved who + amt ∧
      s1.count = s.count ∧ s1.kitties = s.kitties ∧ s1.owner = s.owner ∧
      s1.price = s.price ∧
      (∀ a, a ≠ who → s1.free a = s.free a ∧ s1.reserved a = s.reserved a) := by
  unfold reserveBal at h
  split at h
  · injection h with h
    subst h
    refine ⟨by assumption, by simp, by simp, rfl, rfl, rfl, rfl, ?_⟩
    intro a ha
    simp [ha]
  · exact Option.noConfusion h

/-- A successful keep-alive transfer moves `amt` from the source's free
balance to the destination's and touches nothing else. -/
theorem transferBal_eq_ok {cfg : Cfg} {src dst amt : Nat} {s s3 : KState}
    (h : transferBal cfg src dst amt s = .ok s3) (hne : src ≠ dst) :
    amt + cfg.existentialDeposit ≤ s.free src ∧
      s3.free src = s.free src - amt ∧ s3.free dst = s.free dst + amt ∧
      s3.count = s.count ∧ s3.kitties = s.kitties ∧ s3.owner = s.owner ∧
      s3.price = s.price ∧ s3.reserved = s.reserved ∧
      (∀ a, a ≠ src → a ≠ dst → s3.free a = s.free a) := by
  unfold transferBal at h
  split at h
  · split at h
    · injection h with h
      subst h
      refine ⟨by omega, by simp, ?_, rfl, rfl, rfl, rfl, rfl, ?_⟩
      · simp [hne, Ne.symm hne]
      · intro a h1 h2
        simp [h1, h2]
    · exact Except.noConfusion h
  · exact Except.noConfusion h

/-- C1.  Atomicity: under the host framework's transactional dispatch
(modelled by `applyOp`), any operation that returns an error leaves the
whole state — pallet storage and currency ledger — exactly as it was
before the call. -/
theorem dispatch_error_rollback (cfg : Cfg) (o : Op) (s : KState) (e : KErr)
    (h : runOp cfg o s = .err e) : applyOp cfg o s = s := by
  unfold applyOp
  rw [h]

/-- Witness for C1: a concrete `buy` that passes the collateral
reservation but fails at the price transfer leaves the state — in
particular both parties' free and reserved balances — untouched. -/
theorem dispatch_error_rollback_witness :
    runOp c0 (Op.buy 2 1) c1s = .err .insufficientBalance ∧
      applyOp c0 (Op.buy 2 1) c1s = c1s ∧
      (applyOp c0 (Op.buy 2 1) c1s).reserved 1 = 5 ∧
      (applyOp c0 (Op.buy 2 1) c1s).reserved 2 = 0 :=
  have h : runOp c0 (Op.buy 2 1) c1s = .err .insufficientBalance := rfl
  have h2 := dispatch_error_rollback c0 (Op.buy 2 1) c1s .insufficientBalance h
  ⟨h, h2, by rw [h2]; rfl, by rw [h2]; rfl⟩

/-- C2 (code bug).  A successful `create` on the empty store assigns
id 1 but stores `KittiesCount = 2` (the code writes `kitty_id + 1`),
contradicting the claim — and the repository's own tests — that the
count afterwards equals the highest assigned id, 1. -/
theorem create_empty_store_count_is_two :
    (runOp c0 (Op.create 1 dna0) g0).isOk = true ∧
      mapGet g1.owner 1 = some 1 ∧
      mapGet g1.kitties 1 = some dna0 ∧
      g1.count = some 2 ∧ g1.count ≠ some 1 :=
  ⟨rfl, rfl, rfl, rfl, by decide⟩

/-- C3 (code bug).  `transfer` has no same-owner check: a self-transfer
by the owner of kitty 1 is accepted (returns `Ok`), while the claim and
the repository's own test `transfer_fail_when_to_some_owner` require a
`SameOwner` error (a variant the pallet's error enum does not even
contain). -/
theorem transfer_self_accepted :
    mapGet g1.owner 1 = some 1 ∧
      (runOp c0 (Op.transfer 1 1 1) g1).isOk = true :=
  ⟨rfl, rfl⟩

/-- C4 (code bug).  On an asset with no ownership entry, `transfer` and
`buy` call `.unwrap()` on the missing owner and crash (Rust panic)
instead of returning the typed `InvalidKittyIndex` error the claim
demands. -/
theorem missing_owner_crashes :
    g0.owner 1 = none ∧
      runOp c0 (Op.transfer 1 2 1) g0 = .crash ∧
      runOp c0 (Op.buy 2 1) g0 = .crash :=
  ⟨rfl, rfl, rfl⟩

/-- C10.  `create` reserves the fixed `ReserveOfNewCreate` collateral
from the caller before registering anything: when the caller's free
balance cannot cover it, `create` fails with `NotEnoughBalance` and the
dispatched state is unchanged (no asset, no owner, no count change);
when it succeeds, exactly the collateral has moved from the caller's
free balance to its reserved balance. -/
theorem create_reserves_collateral (cfg : Cfg) (who : Nat) (dna : Dna)
    (s : KState)
    (hc : ∀ id, s.count = some id → id ≠ maxKittyIndex) :
    (s.free who < cfg.reserveOfNewCreate →
      runOp cfg (Op.create who dna) s = .err .notEnoughBalance ∧
        applyOp cfg (Op.create who dna) s = s) ∧
    (∀ s', runOp cfg (Op.create who dna) s = .ok s' →
      cfg.reserveOfNewCreate ≤ s.free who ∧
        s'.free who = s.free who - cfg.reserveOfNewCreate ∧
        s'.reserved who = s.reserved who + cfg.reserveOfNewCreate) := by
  have hid : ∃ kid, nextId s = some kid := by
    unfold nextId
    cases hcnt : s.count with
    | none => exact ⟨1, rfl⟩
    | some id => exact ⟨id, by simp [hc id hcnt]⟩
  obtain ⟨kid, hkid⟩ := hid
  constructor
  · intro hb
    have h1 : runOp cfg (Op.create who dna) s = .err .notEnoughBalance := by
      show create cfg who dna s = _
      unfold create
      rw [hkid]
      unfold reserveBal
      rw [if_neg (by omega)]
    exact ⟨h1, by unfold applyOp; rw [h1]⟩
  · intro s' h
    replace h : create cfg who dna s = .ok s' := h
    unfold create at h
    rw [hkid] at h
    cases hr : reserveBal cfg.reserveOfNewCreate who s with
    | none => rw [hr] at h; exact KResult.noConfusion h
    | some s1 =>
      rw [hr] at h
      injection h with h
      subst h
      obtain ⟨hle, hf, hres, -⟩ := reserveBal_eq_some hr
      exact ⟨hle, hf, hres⟩

/-- Witness for C10: with every balance at 3 and the collateral at 5,
`create` fails with `NotEnoughBalance` and leaves the state unchanged;
and the concrete successful `create` from `g0` moves exactly 5 into the
caller's reserved balance. -/
theorem create_reserves_collateral_witness :
    (runOp c0 (Op.create 1 dna0) c10s = .err .notEnoughBalance ∧
      applyOp c0 (Op.create 1 dna0) c10s = c10s) ∧
      (5 ≤ g0.free 1 ∧ g1.free 1 = g0.free 1 - 5 ∧
        g1.reserved 1 = g0.reserved 1 + 5) :=
  ⟨(create_reserves_collateral c0 1 dna0 c10s
      (fun _ h => Option.noConfusion h)).1 (by decide),
   (create_reserves_collateral c0 1 dna0 g0
      (fun _ h => Option.noConfusion h)).2 g1 rfl⟩

/-- Per-byte unfolding of `mixDna`. -/
theorem mixDna_getD (sel d1 d2 : List Nat) (i : Nat)
    (h1 : i < sel.length) (h2 : i < d1.length) (h3 : i < d2.length) :
    (mixDna sel d1 d2).getD i 0 =
      ((sel.getD i 0) &&& (d1.getD i 0)) |||
        (((sel.getD i 0) ^^^ 255) &&& (d2.getD i 0)) := by
  induction sel generalizing d1 d2 i with
  | nil => simp at h1
  | cons se ss ih =>
    cases d1 with
    | nil => simp at h2
    | cons a da =>
      cases d2 with
      | nil => simp at h3
      | cons b db =>
        cases i with
        | zero => rfl
        | succ n =>
          simp only [mixDna, List.getD_cons_succ]
          exact ih da db n (by simpa using h1) (by simpa using h2)
            (by simpa using h3)

/-- Bit-level meaning of one mixed byte: within the low 8 bits, a set
selector bit picks parent A's bit, a clear one picks parent B's. -/
theorem mixByte_testBit (se a b j : Nat) (hj : j < 8) :
    ((se &&& a) ||| ((se ^^^ 255) &&& b)).testBit j =
      if se.testBit j then a.testBit j else b.testBit j := by
  have h255 : Nat.testBit 255 j = true := by
    have h : (255 : Nat) = 2 ^ 8 - 1 := by norm_num
    rw [h, Nat.testBit_two_pow_sub_one]
    simpa using hj
  simp only [Nat.testBit_lor, Nat.testBit_land, Nat.testBit_xor, h255]
  cases h : se.testBit j <;> simp

/-- C5.  A successful `breed` of two distinct parents owned by the
caller registers a child whose payload is `mixDna sel d1 d2`: byte `i`
equals `(sel[i] &&& d1[i]) ||| ((sel[i] ^^^ 255) &&& d2[i])` (xor with
255 is the byte complement `!`), and within each byte a set entropy bit
inherits parent A's bit while a clear one inherits parent B's.  The
child is a function of the parents' payloads and the entropy alone, so
two runs with the same inputs produce the same child. -/
theorem breed_child_dna_mix (cfg : Cfg) (who i1 i2 : Nat) (sel d1 d2 : Dna)
    (s : KState) (kid : Nat)
    (hne : i1 ≠ i2)
    (ho1 : mapGet s.owner i1 = some who) (ho2 : mapGet s.owner i2 = some who)
    (hd1 : mapGet s.kitties i1 = some d1) (hd2 : mapGet s.kitties i2 = some d2)
    (hid : nextId s = some kid)
    (hl1 : sel.length = 16) (hl2 : d1.length = 16) (hl3 : d2.length = 16) :
    runOp cfg (Op.breed who i1 i2 sel) s =
        .ok (registerKitty kid who (mixDna sel d1 d2) s) ∧
      mapGet (registerKitty kid who (mixDna sel d1 d2) s).kitties kid =
        some (mixDna sel d1 d2) ∧
      (∀ i, i < 16 → (mixDna sel d1 d2).getD i 0 =
        ((sel.getD i 0) &&& (d1.getD i 0)) |||
          (((sel.getD i 0) ^^^ 255) &&& (d2.getD i 0))) ∧
      (∀ i, i < 16 → ∀ j, j < 8 →
        ((mixDna sel d1 d2).getD i 0).testBit j =
          if (sel.getD i 0).testBit j then (d1.getD i 0).testBit j
          else (d2.getD i 0).testBit j) := by
  have hbyte : ∀ i, i < 16 → (mixDna sel d1 d2).getD i 0 =
      ((sel.getD i 0) &&& (d1.getD i 0)) |||
        (((sel.getD i 0) ^^^ 255) &&& (d2.getD i 0)) := by
    intro i hi
    exact mixDna_getD sel d1 d2 i (hl1 ▸ hi) (hl2 ▸ hi) (hl3 ▸ hi)
  refine ⟨?_, ?_, hbyte, ?_⟩
  · show breed who i1 i2 sel s = _
    unfold breed
    rw [ho1, ho2, hd1, hd2, hid]
    simp [hne]
  · unfold registerKitty mapGet
    simp
  · intro i hi j hj
    rw [hbyte i hi]
    exact mixByte_testBit (sel.getD i 0) (d1.getD i 0) (d2.getD i 0) j hj

/-- Witness for C5: breeding kitties 1 and 2 in the concrete two-kitty
state `g2` writes the mixed child at id 3, and its first byte obeys the
per-byte selector formula bit by bit. -/
theorem breed_child_dna_mix_witness :
    runOp c0 (Op.breed 1 1 2 sel0) g2 =
        .ok (registerKitty 3 1 (mixDna sel0 dna0 dna1) g2) ∧
      mapGet (registerKitty 3 1 (mixDna sel0 dna0 dna1) g2).kitties 3 =
        some (mixDna sel0 dna0 dna1) ∧
      (mixDna sel0 dna0 dna1).getD 0 0 =
        ((sel0.getD 0 0) &&& (dna0.getD 0 0)) |||
          (((sel0.getD 0 0) ^^^ 255) &&& (dna1.getD 0 0)) ∧
      ((mixDna sel0 dna0 dna1).getD 1 0).testBit 0 =
        if (sel0.getD 1 0).testBit 0 then (dna0.getD 1 0).testBit 0
        else (dna1.getD 1 0).testBit 0 :=
  have T := breed_child_dna_mix c0 1 1 2 sel0 dna0 dna1 g2 3
    (by decide) rfl rfl rfl rfl rfl (by decide) (by decide) (by decide)
  ⟨T.1, T.2.1, T.2.2.1 0 (by decide), T.2.2.2 1 (by decide) 0 (by decide)⟩

/-- C6 (amended).  Across a successful `buy`: ownership moves to the
buyer, the listing entry is removed, the fixed collateral moves from the
buyer's free into the buyer's reserved balance, `min(collateral,
seller's reserved)` moves out of the seller's reserved balance (the
ledger's unreserve is clamped), exactly the price `p` moves from the
buyer's free to the seller's free balance, and the combined sum of the
four balances is conserved, with the buyer's total down by `p` and the
seller's up by `p`. -/
theorem buy_success_balances (cfg : Cfg) (buyer kid seller p : Nat)
    (s s' : KState)
    (hown : mapGet s.owner kid = some seller)
    (hp : mapGet s.price kid = some p)
    (h : runOp cfg (Op.buy buyer kid) s = .ok s') :
    seller ≠ buyer ∧
      mapGet s'.owner kid = some buyer ∧
      s'.price kid = none ∧
      cfg.reserveOfNewCreate ≤ s.free buyer ∧
      s'.free buyer = s.free buyer - cfg.reserveOfNewCreate - p ∧
      s'.reserved buyer = s.reserved buyer + cfg.reserveOfNewCreate ∧
      s'.reserved seller =
        s.reserved seller - min cfg.reserveOfNewCreate (s.reserved seller) ∧
      s'.free seller =
        s.free seller + min cfg.reserveOfNewCreate (s.reserved seller) + p ∧
      s'.free buyer + s'.reserved buyer + p = s.free buyer + s.reserved buyer ∧
      s'.free seller + s'.reserved seller =
        s.free seller + s.reserved seller + p ∧
      s'.free buyer + s'.reserved buyer + s'.free seller + s'.reserved seller =
        s.free buyer + s.reserved buyer + s.free seller + s.reserved seller := by
  replace h : buy cfg buyer kid s = .ok s' := h
  unfold buy at h
  simp only [hown, hp] at h
  by_cases hsb : seller = buyer
  · rw [if_pos hsb] at h
    exact KResult.noConfusion h
  · rw [if_neg hsb] at h
    have hbs : buyer ≠ seller := Ne.symm hsb
    cases hr : reserveBal cfg.reserveOfNewCreate buyer s with
    | none => simp only [hr] at h; exact KResult.noConfusion h
    | some s1 =>
      simp only [hr] at h
      cases ht : transferBal cfg buyer seller p
          (unreserveBal cfg.reserveOfNewCreate seller s1) with
      | error e => simp only [ht] at h; exact KResult.noConfusion h
      | ok s3 =>
        simp only [ht] at h
        injection h with h
        subst h
        obtain ⟨hR, h1f, h1r, -, -, -, -, h1other⟩ := reserveBal_eq_some hr
        obtain ⟨hTle, h3fsrc, h3fdst, -, -, -, -, h3r, -⟩ :=
          transferBal_eq_ok ht hbs
        have h2fb : (unreserveBal cfg.reserveOfNewCreate seller s1).free buyer
            = s1.free buyer := by simp [unreserveBal, hbs]
        have h2fs : (unreserveBal cfg.reserveOfNewCreate seller s1).free seller
            = s1.free seller + min cfg.reserveOfNewCreate (s1.reserved seller) := by
          simp [unreserveBal]
        have h2rb :
            (unreserveBal cfg.reserveOfNewCreate seller s1).reserved buyer
            = s1.reserved buyer := by simp [unreserveBal, hbs]
        have h2rs :
            (unreserveBal cfg.reserveOfNewCreate seller s1).reserved seller
            = s1.reserved seller - min cfg.reserveOfNewCreate (s1.reserved seller) := by
          simp [unreserveBal]
        have c5 : s3.free buyer = s.free buyer - cfg.reserveOfNewCreate - p := by
          rw [h3fsrc, h2fb, h1f]
        have c6 : s3.reserved buyer
            = s.reserved buyer + cfg.reserveOfNewCreate := by
          rw [h3r, h2rb, h1r]
        have c7 : s3.reserved seller =
            s.reserved seller - min cfg.reserveOfNewCreate (s.reserved seller) := by
          rw [h3r, h2rs, (h1other seller hsb).2]
        have c8 : s3.free seller =
            s.free seller + min cfg.reserveOfNewCreate (s.reserved seller) + p := by
          rw [h3fdst, h2fs, (h1other seller hsb).1, (h1other seller hsb).2]
        rw [h2fb, h1f] at hTle
        have hm : min cfg.reserveOfNewCreate (s.reserved seller)
            ≤ s.reserved seller := Nat.min_le_right _ _
        refine ⟨hsb, by simp [transferKitty, mapGet], by simp [transferKitty],
          hR, c5, c6, c7, c8, ?_, ?_, ?_⟩
        · show s3.free buyer + s3.reserved buyer + p
            = s.free buyer + s.reserved buyer
          omega
        · show s3.free seller + s3.reserved seller
            = s.free seller + s.reserved seller + p
          omega
        · show s3.free buyer + s3.reserved buyer + s3.free seller
              + s3.reserved seller
            = s.free buyer + s.reserved buyer + s.free seller
              + s.reserved seller
          omega

/-- Counterexample for C6: a reachable successful `buy` of kitty 3
(owned by account 1 through `breed`, which takes no reservation, after
its two created kitties were sold off) in which the seller's reserved
balance is 0 before and after the purchase — the fixed collateral 5
does **not** move out of the seller's reserved balance. -/
theorem buy_clamped_unreserve_cex :
    (runOp c0 (Op.buy 2 3) c6pre).isOk = true ∧
      mapGet c6pre.owner 3 = some 1 ∧
      mapGet c6pre.price 3 = some 10 ∧
      c0.reserveOfNewCreate = 5 ∧
      c6pre.reserved 1 = 0 ∧
      c6post.reserved 1 = 0 ∧
      mapGet c6post.owner 3 = some 2 :=
  ⟨rfl, rfl, rfl, rfl, rfl, rfl, rfl⟩

/-- Witness for C6: applying the theorem to the concrete funded
purchase of kitty 1 in `c6w` (seller 1 has the full collateral 5
reserved, buyer 2 holds 1000). -/
theorem buy_success_balances_witness :
    (1 : Nat) ≠ 2 ∧
      mapGet c6wpost.owner 1 = some 2 ∧
      c6wpost.price 1 = none ∧
      c0.reserveOfNewCreate ≤ c6w.free 2 ∧
      c6wpost.free 2 = c6w.free 2 - c0.reserveOfNewCreate - 10 ∧
      c6wpost.reserved 2 = c6w.reserved 2 + c0.reserveOfNewCreate ∧
      c6wpost.reserved 1 =
        c6w.reserved 1 - min c0.reserveOfNewCreate (c6w.reserved 1) ∧
      c6wpost.free 1 =
        c6w.free 1 + min c0.reserveOfNewCreate (c6w.reserved 1) + 10 ∧
      c6wpost.free 2 + c6wpost.reserved 2 + 10 = c6w.free 2 + c6w.reserved 2 ∧
      c6wpost.free 1 + c6wpost.reserved 1 =
        c6w.free 1 + c6w.reserved 1 + 10 ∧
      c6wpost.free 2 + c6wpost.reserved 2 + c6wpost.free 1 + c6wpost.reserved 1 =
        c6w.free 2 + c6w.reserved 2 + c6w.free 1 + c6w.reserved 1 :=
  buy_success_balances c0 2 1 1 10 c6w c6wpost rfl rfl rfl

/-- Reading an updated map at the updated key. -/
theorem mapGet_update_self (m : Nat → Option (Option α)) (k : Nat)
    (v : Option α) :
    mapGet (fun j => if j = k then some v else m j) k = v := by
  simp [mapGet]

/-- Reading an updated map at any other key. -/
theorem mapGet_update_ne (m : Nat → Option (Option α)) (k j : Nat)
    (v : Option α) (h : j ≠ k) :
    mapGet (fun i => if i = k then some v else m i) j = mapGet m j := by
  simp [mapGet, h]

/-- A successful currency transfer does not touch the pallet's
storage. -/
theorem transferBal_store {cfg : Cfg} {src dst amt : Nat} {s s3 : KState}
    (h : transferBal cfg src dst amt s = .ok s3) :
    s3.count = s.count ∧ s3.kitties = s.kitties ∧ s3.owner = s.owner ∧
      s3.price = s.price := by
  unfold transferBal at h
  split at h
  · split at h
    · injection h with h
      subst h
      exact ⟨rfl, rfl, rfl, rfl⟩
    · exact Except.noConfusion h
  · exact Except.noConfusion h

/-- One dispatched operation preserves the registered-iff-owned
invariant. -/
theorem step_preserves_owned_iff (cfg : Cfg) (o : Op) (s : KState)
    (ih : ∀ id, (mapGet s.kitties id).isSome = (mapGet s.owner id).isSome) :
    ∀ id, (mapGet (applyOp cfg o s).kitties id).isSome
      = (mapGet (applyOp cfg o s).owner id).isSome := by
  intro id
  unfold applyOp
  cases hr : runOp cfg o s with
  | err e => simp only [hr]; exact ih id
  | crash => simp only [hr]; exact ih id
  | ok s' =>
    simp only [hr]
    cases o with
    | create who dna =>
      replace hr : create cfg who dna s = .ok s' := hr
      unfold create at hr
      cases hn : nextId s with
      | none => simp only [hn] at hr; exact KResult.noConfusion hr
      | some kid =>
        simp only [hn] at hr
        cases hrb : reserveBal cfg.reserveOfNewCreate who s with
        | none => simp only [hrb] at hr; exact KResult.noConfusion hr
        | some s1 =>
          simp only [hrb] at hr
          injection hr with hr
          subst hr
          obtain ⟨-, -, -, -, hk, ho, -, -⟩ := reserveBal_eq_some hrb
          show (mapGet (fun j => if j = kid then some (some dna)
              else s1.kitties j) id).isSome
            = (mapGet (fun j => if j = kid then some (some who)
              else s1.owner j) id).isSome
          by_cases hik : id = kid
          · subst hik
            rw [mapGet_update_self, mapGet_update_self]
            rfl
          · rw [mapGet_update_ne _ _ _ _ hik, mapGet_update_ne _ _ _ _ hik,
              hk, ho]
            exact ih id
    | transfer sender dst kid =>
      replace hr : transfer sender dst kid s = .ok s' := hr
      unfold transfer at hr
      cases ho : mapGet s.owner kid with
      | none => simp only [ho] at hr; exact KResult.noConfusion hr
      | some ow =>
        simp only [ho] at hr
        split at hr
        · injection hr with hr
          subst hr
          show (mapGet s.kitties id).isSome
            = (mapGet (fun j => if j = kid then some (some dst)
              else s.owner j) id).isSome
          by_cases hik : id = kid
          · subst hik
            rw [mapGet_update_self, ih id, ho]
            rfl
          · rw [mapGet_update_ne _ _ _ _ hik]
            exact ih id
        · exact KResult.noConfusion hr
    | breed who i1 i2 sel =>
      replace hr : breed who i1 i2 sel s = .ok s' := hr
      unfold breed at hr
      split at hr
      · exact KResult.noConfusion hr
      · cases h1 : mapGet s.owner i1 with
        | none => simp only [h1] at hr; exact KResult.noConfusion hr
        | some o1 =>
          simp only [h1] at hr
          cases h2 : mapGet s.owner i2 with
          | none => simp only [h2] at hr; exact KResult.noConfusion hr
          | some o2 =>
            simp only [h2] at hr
            split at hr
            · split at hr
              · cases h3 : mapGet s.kitties i1 with
                | none => simp only [h3] at hr; exact KResult.noConfusion hr
                | some d1 =>
                  simp only [h3] at hr
                  cases h4 : mapGet s.kitties i2 with
                  | none => simp only [h4] at hr; exact KResult.noConfusion hr
                  | some d2 =>
                    simp only [h4] at hr
                    cases hn : nextId s with
                    | none =>
                      simp only [hn] at hr; exact KResult.noConfusion hr
                    | some kid =>
                      simp only [hn] at hr
                      injection hr with hr
                      subst hr
                      show (mapGet (fun j => if j = kid
                          then some (some (mixDna sel d1 d2))
                          else s.kitties j) id).isSome
                        = (mapGet (fun j => if j = kid then some (some who)
                          else s.owner j) id).isSome
                      by_cases hik : id = kid
                      · subst hik
                        rw [mapGet_update_self, mapGet_update_self]
                        rfl
                      · rw [mapGet_update_ne _ _ _ _ hik,
                          mapGet_update_ne _ _ _ _ hik]
                        exact ih id
              · exact KResult.noConfusion hr
            · exact KResult.noConfusion hr
    | sell who kid p =>
      replace hr : sell who kid p s = .ok s' := hr
      unfold sell at hr
      split at hr
      · injection hr with hr
        subst hr
        exact ih id
      · exact KResult.noConfusion hr
    | buy buyer kid =>
      replace hr : buy cfg buyer kid s = .ok s' := hr
      unfold buy at hr
      cases ho : mapGet s.owner kid with
      | none => simp only [ho] at hr; exact KResult.noConfusion hr
      | some ow =>
        simp only [ho] at hr
        split at hr
        · exact KResult.noConfusion hr
        · cases hp : mapGet s.price kid with
          | none => simp only [hp] at hr; exact KResult.noConfusion hr
          | some p =>
            simp only [hp] at hr
            cases hrb : reserveBal cfg.reserveOfNewCreate buyer s with
            | none => simp only [hrb] at hr; exact KResult.noConfusion hr
            | some s1 =>
              simp only [hrb] at hr
              cases ht : transferBal cfg buyer ow p
                  (unreserveBal cfg.reserveOfNewCreate ow s1) with
              | error e =>
                simp only [ht] at hr; exact KResult.noConfusion hr
              | ok s3 =>
                simp only [ht] at hr
                injection hr with hr
                subst hr
                obtain ⟨-, -, -, -, h1k, h1o, -, -⟩ := reserveBal_eq_some hrb
                obtain ⟨-, h3k, h3o, -⟩ := transferBal_store ht
                have h2k : (unreserveBal cfg.reserveOfNewCreate ow s1).kitties
                    = s1.kitties := rfl
                have h2o : (unreserveBal cfg.reserveOfNewCreate ow s1).owner
                    = s1.owner := rfl
                show (mapGet s3.kitties id).isSome
                  = (mapGet (fun j => if j = kid then some (some buyer)
                    else s3.owner j) id).isSome
                rw [h3k, h2k, h1k]
                by_cases hik : id = kid
                · subst hik
                  rw [mapGet_update_self, ih id, ho]
                  rfl
                · rw [mapGet_update_ne _ _ _ _ hik, h3o, h2o, h1o]
                  exact ih id

/-- C7.  In every state reachable from a genesis state by dispatching
`create`, `transfer`, `breed`, `sell` and `buy`, an asset record exists
for an id exactly when an ownership entry exists for it (and the
`Owner` map assigns at most one owner per id by construction), so no
operation ever produces an owned-but-unregistered or
registered-but-unowned id. -/
theorem reachable_kitty_iff_owner (cfg : Cfg) (s : KState)
    (h : Reachable cfg s) :
    ∀ id, (mapGet s.kitties id).isSome = (mapGet s.owner id).isSome := by
  induction h with
  | init s hg =>
    intro id
    rw [show mapGet s.kitties id = none by simp [mapGet, hg.2.1 id],
      show mapGet s.owner id = none by simp [mapGet, hg.2.2.1 id]]
    rfl
  | step s o hr ih => exact step_preserves_owned_iff cfg o s ih

/-- Witness for C7: the invariant instantiated at the reachable state
`g1` (one `create` from the concrete genesis state `g0`) and id 1. -/
theorem reachable_kitty_iff_owner_witness :
    (mapGet g1.kitties 1).isSome = (mapGet g1.owner 1).isSome :=
  reachable_kitty_iff_owner c0 g1
    (Reachable.step g0 (.create 1 dna0)
      (Reachable.init g0 ⟨rfl, fun _ => rfl, fun _ => rfl, fun _ => rfl⟩)) 1

/-- C8 (amended).  A successful `sell(owner, id, None)` leaves the
asset effectively unlisted: the stored `KittiesPrice` entry for the id
holds `None` (the physical entry remains — `mutate_exists` writes
`Some(None)` rather than removing it), the listing query yields no
price, and a subsequent `buy` by any account other than the owner fails
with `NotForSale`. -/
theorem sell_none_effective_delist (cfg : Cfg) (who kid : Nat)
    (s s' : KState)
    (h : runOp cfg (Op.sell who kid none) s = .ok s') :
    s'.price kid = some none ∧ mapGet s'.price kid = none ∧
      (∀ buyer, buyer ≠ who →
        runOp cfg (Op.buy buyer kid) s' = .err .notForSale) := by
  replace h : sell who kid none s = .ok s' := h
  unfold sell at h
  split at h
  case isTrue hw =>
    injection h with h
    subst h
    refine ⟨by simp, by simp [mapGet], ?_⟩
    intro buyer hb
    show buy cfg buyer kid _ = _
    unfold buy
    have ho : mapGet ({ s with price := fun j =>
        if j = kid then (some none) else s.price j } : KState).owner kid
        = some who := hw
    simp only [ho]
    rw [if_neg (fun hh => hb hh.symm)]
    simp [mapGet]
  case isFalse => exact KResult.noConfusion h

/-- Counterexample for C8: after `create` then `sell(1, 1, None)`, the
`KittiesPrice` map still *has* an entry for id 1 (holding `None`), so
the claim that the Listing mapping has no entry is false — even though
a buy by another account does fail with `NotForSale`. -/
theorem sell_none_entry_remains_cex :
    (runOp c0 (Op.sell 1 1 none) g1).isOk = true ∧
      c8s.price 1 = some none ∧ c8s.price 1 ≠ none ∧
      runOp c0 (Op.buy 2 1) c8s = .err .notForSale :=
  ⟨rfl, rfl, by decide, rfl⟩

/-- Witness for C8: the amended theorem applied to the concrete
delisting of kitty 1 in `g1`, with buyer 2. -/
theorem sell_none_effective_delist_witness :
    c8s.price 1 = some none ∧ mapGet c8s.price 1 = none ∧
      runOp c0 (Op.buy 2 1) c8s = .err .notForSale :=
  have T := sell_none_effective_delist c0 1 1 g1 c8s rfl
  ⟨T.1, T.2.1, T.2.2 2 (by decide)⟩

/-- C9.  A successful `transfer` changes only the ownership entry of
the transferred id: `KittiesCount`, every kitty payload, every listing
(including the transferred asset's own listing, which thus survives the
transfer), every balance, and every other id's owner entry are
unchanged, while the transferred id's owner becomes the destination. -/
theorem transfer_frame (cfg : Cfg) (sender dst kid : Nat) (s s' : KState)
    (h : runOp cfg (Op.transfer sender dst kid) s = .ok s') :
    s'.count = s.count ∧ (∀ j, s'.kitties j = s.kitties j) ∧
      (∀ j, s'.price j = s.price j) ∧ (∀ a, s'.free a = s.free a) ∧
      (∀ a, s'.reserved a = s.reserved a) ∧
      (∀ j, j ≠ kid → s'.owner j = s.owner j) ∧
      s'.owner kid = some (some dst) := by
  replace h : transfer sender dst kid s = .ok s' := h
  unfold transfer at h
  cases ho : mapGet s.owner kid with
  | none => simp only [ho] at h; exact KResult.noConfusion h
  | some ow =>
    simp only [ho] at h
    split at h
    · injection h with h
      subst h
      refine ⟨rfl, fun j => rfl, fun j => rfl, fun a => rfl, fun a => rfl,
        ?_, ?_⟩
      · intro j hj
        simp [transferKitty, hj]
      · simp [transferKitty]
    · exact KResult.noConfusion h

/-- Witness for C9: the concrete transfer of kitty 1 from account 1 to
account 2 in `g1` keeps the count, payload, listing and balances, and
rewrites only the owner entry of id 1. -/
theorem transfer_frame_witness :
    c9post.count = g1.count ∧ c9post.kitties 1 = g1.kitties 1 ∧
      c9post.price 1 = g1.price 1 ∧ c9post.free 1 = g1.free 1 ∧
      c9post.reserved 1 = g1.reserved 1 ∧
      c9post.owner 2 = g1.owner 2 ∧ c9post.owner 1 = some (some 2) :=
  have T := transfer_frame c0 1 2 1 g1 c9post rfl
  ⟨T.1, T.2.1 1, T.2.2.1 1, T.2.2.2.1 1, T.2.2.2.2.1 1,
    T.2.2.2.2.2.1 2 (by decide), T.2.2.2.2.2.2⟩

end SubstrateKitties
